import Mathlib

/-!
Verification development for the develop-os-free repository.

The repository ships a Forth-like language engine (lexer, value stack,
dictionary, two-mode interpreter with compile-time backpatching) plus a
VGA text-mode game.  Of the engine, only the header `src/forth/lexer.h`
is present in the sources given to us; the interpreter, value-stack and
dictionary implementations are declared there and in the design document
but their bodies are not under `src/`.  Those parts are shallowly
embedded here from the design document (each such definition carries a
doc comment starting with `Modelled from the spec:`).  Everything that
does exist under `src/` (`lexer.h` constants and enumerations,
`common/cursor.c`, `kernel.c`) is translated directly from the source.
-/

namespace DevelopOS

/-! ## Lexer data model — translated from `src/forth/lexer.h` -/

/-- `#define LINE_BUFFER_SIZE 256` in `src/forth/lexer.h`. -/
def LINE_BUFFER_SIZE : Nat := 256

/-- `#define TOKENS_BUFFER_SIZE 128` in `src/forth/lexer.h`. -/
def TOKENS_BUFFER_SIZE : Nat := 128

/-- `enum LEXER_STATE` from `src/forth/lexer.h`: the interpreter mode. -/
inductive LEXER_STATE where
  | LEXER_STATE_COMPILE
  | LEXER_STATE_EXECUTE
deriving DecidableEq, Repr

/-- `enum TOKEN_TYPE` from `src/forth/lexer.h`: the full token vocabulary. -/
inductive TOKEN_TYPE where
  | TOKEN_INT
  | TOKEN_WORD
  | TOKEN_DUP
  | TOKEN_DROP
  | TOKEN_SWAP
  | TOKEN_CL
  | TOKEN_ABS
  | TOKEN_IF
  | TOKEN_ELSE
  | TOKEN_THEN
  | TOKEN_PLUS
  | TOKEN_MINUS
  | TOKEN_MUL
  | TOKEN_DIV
  | TOKEN_MOD
  | TOKEN_DOT
  | TOKEN_EQ
  | TOKEN_MORE
  | TOKEN_LESS
  | TOKEN_COLON
  | TOKEN_SEMICOLON
deriving DecidableEq, Repr

open TOKEN_TYPE LEXER_STATE

/-- `struct token` from `src/forth/lexer.h`: integer payload, name payload
(with its length) and the tag. -/
structure Token where
  int_value : Int
  value : String
  value_len : Nat
  type : TOKEN_TYPE
deriving DecidableEq, Repr

/-- Token constructor for an integer literal. -/
def mkInt (v : Int) : Token := ⟨v, "", 0, TOKEN_INT⟩

/-- Token constructor for a user word reference (name case-normalized by
the lexer before this token is built). -/
def mkWord (s : String) : Token := ⟨0, s, s.length, TOKEN_WORD⟩

/-- Token constructor for a built-in tag with no payload. -/
def mkOp (t : TOKEN_TYPE) : Token := ⟨0, "", 0, t⟩

/-- Modelled from the spec: the single-character operator recognition of
`next_token` (whose body is not under `src/`).  §4.1: each of
`+ - * / % . : ; = < >` maps deterministically to one built-in tag, in
the order the per-character read states `LEXER_READ_PLUS` …
`LEXER_READ_MORE` are declared in `src/forth/lexer.h`; no other
character starts an operator. -/
def charToken (c : Char) : Option TOKEN_TYPE :=
  if c = '+' then some TOKEN_PLUS
  else if c = '-' then some TOKEN_MINUS
  else if c = '*' then some TOKEN_MUL
  else if c = '/' then some TOKEN_DIV
  else if c = '%' then some TOKEN_MOD
  else if c = '.' then some TOKEN_DOT
  else if c = ':' then some TOKEN_COLON
  else if c = ';' then some TOKEN_SEMICOLON
  else if c = '=' then some TOKEN_EQ
  else if c = '<' then some TOKEN_LESS
  else if c = '>' then some TOKEN_MORE
  else none

/-- Modelled from the spec: the fixed built-in name table of §4.1 against
which an alphabetic run is tested (`DUP, DROP, SWAP, CL, ABS, IF, ELSE,
THEN`) before being classified as a generic word reference; the lookup
itself lives in the missing `next_token` body. -/
def builtinWordToken (s : String) : Option TOKEN_TYPE :=
  if s = "DUP" then some TOKEN_DUP
  else if s = "DROP" then some TOKEN_DROP
  else if s = "SWAP" then some TOKEN_SWAP
  else if s = "CL" then some TOKEN_CL
  else if s = "ABS" then some TOKEN_ABS
  else if s = "IF" then some TOKEN_IF
  else if s = "ELSE" then some TOKEN_ELSE
  else if s = "THEN" then some TOKEN_THEN
  else none

/-- The eleven single-character operator spellings of §4.1. -/
def opChars : List Char := ['+', '-', '*', '/', '%', '.', ':', ';', '=', '<', '>']

/-- The nineteen built-in tags: every `TOKEN_TYPE` other than the two
payload-carrying tags `TOKEN_INT` and `TOKEN_WORD`. -/
def builtinTags : List TOKEN_TYPE :=
  [TOKEN_DUP, TOKEN_DROP, TOKEN_SWAP, TOKEN_CL, TOKEN_ABS,
   TOKEN_IF, TOKEN_ELSE, TOKEN_THEN,
   TOKEN_PLUS, TOKEN_MINUS, TOKEN_MUL, TOKEN_DIV, TOKEN_MOD,
   TOKEN_DOT, TOKEN_EQ, TOKEN_MORE, TOKEN_LESS,
   TOKEN_COLON, TOKEN_SEMICOLON]

/-! ## Error kinds — §7 of the design document -/

/-- Modelled from the spec: the typed failure kinds of §7 returned by the
engine (the C implementation of the interpreter is not under `src/`). -/
inductive ForthError where
  | StackOverflow
  | StackUnderflow
  | UnknownWord
  | InvalidDefinition
  | NestedDefinition
  | MisplacedControlFlow
  | UnbalancedControlFlow
  | RecursionLimitExceeded
deriving DecidableEq, Repr

/-! ## Value Stack — §3/§4.2 of the design document -/

/-- Modelled from the spec: the Value Stack of §3 — an ordered sequence of
signed integers (top of stack at the head) with a fixed capacity.  The
documented invariant is `values.length ≤ capacity`. -/
structure ValueStack where
  values : List Int
  capacity : Nat
deriving DecidableEq, Repr

namespace ValueStack

/-- Modelled from the spec: `depth()` of §4.2 — the current height. -/
def depth (s : ValueStack) : Nat := s.values.length

/-- Modelled from the spec: `push(v)` of §4.2 — fails with StackOverflow
when height equals capacity, and then the value is not stored. -/
def push (s : ValueStack) (v : Int) : Except ForthError ValueStack :=
  if s.values.length = s.capacity then .error .StackOverflow
  else .ok { s with values := v :: s.values }

/-- Modelled from the spec: `pop()` of §4.2 — fails with StackUnderflow
when height is 0, otherwise removes and returns the top value. -/
def pop (s : ValueStack) : Except ForthError (Int × ValueStack) :=
  match s.values with
  | [] => .error .StackUnderflow
  | v :: rest => .ok (v, { s with values := rest })

/-- Modelled from the spec: `peek()` of §4.2 — fails with StackUnderflow
when height is 0, otherwise returns the top value without removing it. -/
def peek (s : ValueStack) : Except ForthError Int :=
  match s.values with
  | [] => .error .StackUnderflow
  | v :: _ => .ok v

/-- Modelled from the spec: `clear()` of §4.2 — empties the stack. -/
def clear (s : ValueStack) : ValueStack := { s with values := [] }

/-- Pushing a whole list of values in order, stopping at the first
failure; used to state the depth law of §8. -/
def pushList (s : ValueStack) : List Int → Except ForthError ValueStack
  | [] => .ok s
  | v :: vs =>
    match push s v with
    | .ok s₁ => pushList s₁ vs
    | .error e => .error e

end ValueStack

/-! ## Dictionary and compiled bodies — §3/§4.3 of the design document -/

/-- Modelled from the spec: one item of a compiled user-word body (§4.3).
During compilation the tokens of the definition are appended verbatim
(`tok`), except that `IF` compiles to a conditional branch-if-false and
`ELSE` additionally appends an unconditional branch; a branch target is
`none` while unresolved (still on the patch stack) and is set by the
backpatching of `ELSE`/`THEN`.  A finalized body contains only resolved
(`some`) targets, and all of them are forward targets. -/
inductive BodyItem where
  | tok (t : Token)
  | branchIfFalse (target : Option Nat)
  | branch (target : Option Nat)
deriving DecidableEq, Repr

/-- Modelled from the spec: a user-defined Dictionary entry (§3) — a
case-normalized name and an ordered body of tokens/branches. -/
structure DictEntry where
  name : String
  body : List BodyItem
deriving DecidableEq, Repr

/-- Modelled from the spec: Dictionary lookup.  Installing an entry conses
it in front, so the first match wins: a redefinition shadows the old
entry (§3) while the old entry object is left intact. -/
def dictLookup (d : List DictEntry) (name : String) : Option DictEntry :=
  match d with
  | [] => none
  | e :: rest => if e.name = name then some e else dictLookup rest name

/-- Modelled from the spec: backpatching one branch (§4.3) — resolve the
branch item stored at position `pos` of the body to target `tgt`. -/
def setTarget (body : List BodyItem) (pos tgt : Nat) : List BodyItem :=
  match body.get? pos with
  | some (.branchIfFalse _) => body.set pos (.branchIfFalse (some tgt))
  | some (.branch _) => body.set pos (.branch (some tgt))
  | _ => body

/-- Modelled from the spec: the Interpreter State of §3 — mode, Value
Stack, Dictionary, active entry being compiled (valid only in COMPILE
mode) and the control-flow patch stack of unresolved branch positions. -/
structure Interp where
  mode : LEXER_STATE
  stack : ValueStack
  dict : List DictEntry
  current : Option DictEntry
  patchStack : List Nat
deriving DecidableEq, Repr

/-- Modelled from the spec: the binary arithmetic and comparison table of
§4.2/§6.  Operands pop right-to-left in postfix order, so the function
receives the deeper operand first (`a b -` computes `a - b`); comparisons
push 1 for true and 0 for false.  `/` and `%` use C truncated division,
matching the freestanding C implementation. -/
def binOpFn : TOKEN_TYPE → Option (Int → Int → Int)
  | TOKEN_PLUS => some (fun a b => a + b)
  | TOKEN_MINUS => some (fun a b => a - b)
  | TOKEN_MUL => some (fun a b => a * b)
  | TOKEN_DIV => some (fun a b => Int.tdiv a b)
  | TOKEN_MOD => some (fun a b => Int.tmod a b)
  | TOKEN_EQ => some (fun a b => if a = b then 1 else 0)
  | TOKEN_LESS => some (fun a b => if a < b then 1 else 0)
  | TOKEN_MORE => some (fun a b => if a > b then 1 else 0)
  | _ => none

/-- Modelled from the spec: the immediate action of one non-word,
non-definition token (§4.3 EXECUTE mode).  Returns the new stack and the
output emitted so far; on failure nothing is pushed and the stack is
left untouched (§4.2: operations never partially apply their effect).
`IF`/`ELSE`/`THEN`/`:`/`;` reaching this function are misplaced control
flow (the interpreter loop intercepts `:` and compiles the others). -/
def applyPrim (t : Token) (s : ValueStack) (out : List Int) :
    Except ForthError (ValueStack × List Int) :=
  match t.type with
  | TOKEN_INT =>
    match s.push t.int_value with
    | .ok s₁ => .ok (s₁, out)
    | .error e => .error e
  | TOKEN_DUP =>
    match s.values with
    | [] => .error .StackUnderflow
    | v :: rest =>
      if s.values.length = s.capacity then .error .StackOverflow
      else .ok ({ s with values := v :: v :: rest }, out)
  | TOKEN_DROP =>
    match s.values with
    | [] => .error .StackUnderflow
    | _ :: rest => .ok ({ s with values := rest }, out)
  | TOKEN_SWAP =>
    match s.values with
    | b :: a :: rest => .ok ({ s with values := a :: b :: rest }, out)
    | _ => .error .StackUnderflow
  | TOKEN_CL => .ok (s.clear, out)
  | TOKEN_ABS =>
    match s.values with
    | [] => .error .StackUnderflow
    | v :: rest => .ok ({ s with values := |v| :: rest }, out)
  | TOKEN_DOT =>
    match s.values with
    | [] => .error .StackUnderflow
    | v :: rest => .ok ({ s with values := rest }, out ++ [v])
  | TOKEN_WORD => .error .UnknownWord
  | TOKEN_IF => .error .MisplacedControlFlow
  | TOKEN_ELSE => .error .MisplacedControlFlow
  | TOKEN_THEN => .error .MisplacedControlFlow
  | TOKEN_COLON => .error .MisplacedControlFlow
  | TOKEN_SEMICOLON => .error .MisplacedControlFlow
  | op =>
    match binOpFn op with
    | some f =>
      match s.values with
      | b :: a :: rest => .ok ({ s with values := f a b :: rest }, out)
      | _ => .error .StackUnderflow
    | none => .error .MisplacedControlFlow

/-- Modelled from the spec: execution of a compiled user-word body (§4.3).
`pc` is the position in the body; a resolved conditional branch pops one
value, jumps to its recorded target on zero and falls through otherwise;
an unconditional branch always jumps.  A nested word reference executes
that entry's body recursively.  `fuel` is the explicit execution budget
realising the bounded-recursion requirement of §4.3; exhausting it fails
with RecursionLimitExceeded.  An unresolved branch target (impossible in
a finalized body) is reported as unbalanced control flow.  An error
carries the Value Stack and output exactly as they were at the point of
failure (§7). -/
def execBody : Nat → List DictEntry → List BodyItem → Nat → ValueStack → List Int →
    Except (ForthError × ValueStack × List Int) (ValueStack × List Int)
  | 0, _, _, _, s, out => .error (.RecursionLimitExceeded, s, out)
  | f + 1, dict, body, pc, s, out =>
    if h : pc < body.length then
      match body.get ⟨pc, h⟩ with
      | .tok t =>
        if t.type = TOKEN_WORD then
          match dictLookup dict t.value with
          | none => .error (.UnknownWord, s, out)
          | some e =>
            match execBody f dict e.body 0 s out with
            | .ok (s₁, out₁) => execBody f dict body (pc + 1) s₁ out₁
            | .error err => .error err
        else
          match applyPrim t s out with
          | .ok (s₁, out₁) => execBody f dict body (pc + 1) s₁ out₁
          | .error e => .error (e, s, out)
      | .branchIfFalse none => .error (.UnbalancedControlFlow, s, out)
      | .branchIfFalse (some tgt) =>
        match s.values with
        | [] => .error (.StackUnderflow, s, out)
        | v :: rest =>
          if v = 0 then execBody f dict body tgt { s with values := rest } out
          else execBody f dict body (pc + 1) { s with values := rest } out
      | .branch none => .error (.UnbalancedControlFlow, s, out)
      | .branch (some tgt) => execBody f dict body tgt s out
    else .ok (s, out)

/-- Modelled from the spec: the EXECUTE-mode action of one token (§4.3):
a user word reference runs its Dictionary entry's body recursively under
the recursion limit; every other token acts immediately on the Value
Stack.  An error carries the stack and output at the point of failure. -/
def execToken (fuel : Nat) (dict : List DictEntry) (t : Token)
    (s : ValueStack) (out : List Int) :
    Except (ForthError × ValueStack × List Int) (ValueStack × List Int) :=
  if t.type = TOKEN_WORD then
    match dictLookup dict t.value with
    | none => .error (.UnknownWord, s, out)
    | some e => execBody fuel dict e.body 0 s out
  else
    match applyPrim t s out with
    | .ok r => .ok r
    | .error e => .error (e, s, out)

/-- Modelled from the spec: the failure recovery of §7 — the failing line
is abandoned, the in-progress definition (if any) is discarded without
touching the Dictionary, the mode is forced back to EXECUTE, and the
Value Stack is left exactly as it was at the point of failure. -/
def failState (st : Interp) (stk : ValueStack) : Interp :=
  { st with mode := LEXER_STATE_EXECUTE, current := none, patchStack := [],
            stack := stk }

/-- Modelled from the spec: the core state machine of §4.3 — interprets
one line's token sequence against an Interpreter state, returning the
final state, the integers printed by `.`, and `some` error kind if the
line failed (in which case processing stopped at the failing token). -/
def interpretTokens (fuel : Nat) (st : Interp) (out : List Int) :
    List Token → Interp × List Int × Option ForthError
  | [] => (st, out, none)
  | t :: ts =>
    match st.mode with
    | LEXER_STATE_EXECUTE =>
      match t.type with
      | TOKEN_COLON =>
        match ts with
        | [] => (failState st st.stack, out, some .InvalidDefinition)
        | n :: ts' =>
          if n.type = TOKEN_WORD then
            interpretTokens fuel
              { st with mode := LEXER_STATE_COMPILE,
                        current := some ⟨n.value, []⟩, patchStack := [] } out ts'
          else (failState st st.stack, out, some .InvalidDefinition)
      | _ =>
        match execToken fuel st.dict t st.stack out with
        | .ok (s₁, out₁) => interpretTokens fuel { st with stack := s₁ } out₁ ts
        | .error (e, sf, outf) => (failState st sf, outf, some e)
    | LEXER_STATE_COMPILE =>
      match st.current with
      | none => (failState st st.stack, out, some .InvalidDefinition)
      | some entry =>
        match t.type with
        | TOKEN_IF =>
          interpretTokens fuel
            { st with current := some ⟨entry.name, entry.body ++ [.branchIfFalse none]⟩,
                      patchStack := entry.body.length :: st.patchStack } out ts
        | TOKEN_ELSE =>
          match st.patchStack with
          | [] => (failState st st.stack, out, some .UnbalancedControlFlow)
          | pos :: rest =>
            interpretTokens fuel
              { st with current := some ⟨entry.name,
                          setTarget entry.body pos (entry.body.length + 1)
                            ++ [.branch none]⟩,
                        patchStack := entry.body.length :: rest } out ts
        | TOKEN_THEN =>
          match st.patchStack with
          | [] => (failState st st.stack, out, some .UnbalancedControlFlow)
          | pos :: rest =>
            interpretTokens fuel
              { st with current := some ⟨entry.name,
                          setTarget entry.body pos entry.body.length⟩,
                        patchStack := rest } out ts
        | TOKEN_SEMICOLON =>
          match st.patchStack with
          | [] =>
            interpretTokens fuel
              { st with mode := LEXER_STATE_EXECUTE,
                        dict := entry :: st.dict, current := none } out ts
          | _ :: _ => (failState st st.stack, out, some .UnbalancedControlFlow)
        | TOKEN_COLON => (failState st st.stack, out, some .NestedDefinition)
        | _ =>
          interpretTokens fuel
            { st with current := some ⟨entry.name, entry.body ++ [.tok t]⟩ } out ts

/-- A fresh Interpreter state: EXECUTE mode, empty stack of the given
capacity, empty Dictionary (§3: created once at start-up). -/
def initInterp (cap : Nat) : Interp :=
  ⟨LEXER_STATE_EXECUTE, ⟨[], cap⟩, [], none, []⟩

/-- The token sequence of the line `: ABSIFY DUP 0 < IF 0 - THEN ;`
from §8 of the design document. -/
def absifyDef : List Token :=
  [mkOp TOKEN_COLON, mkWord "ABSIFY", mkOp TOKEN_DUP, mkInt 0, mkOp TOKEN_LESS,
   mkOp TOKEN_IF, mkInt 0, mkOp TOKEN_MINUS, mkOp TOKEN_THEN, mkOp TOKEN_SEMICOLON]

/-! ## VGA cursor — translated from `src/common/cursor.c` -/

/-- Modelled from the spec: `VGA_WIDTH` from the screen header, which is
not under `src/`; standard 80-column VGA text mode, consistent with the
screen coordinates used by `src/kernel.c`. -/
def VGA_WIDTH : Int := 80

/-- Modelled from the spec: `VGA_HEIGHT` from the screen header, which is
not under `src/`; standard 25-row VGA text mode, consistent with the
screen coordinates used by `src/kernel.c`. -/
def VGA_HEIGHT : Int := 25

/-- The global cursor position `cursor_x`, `cursor_y` read and written by
`src/common/cursor.c`. -/
structure CursorState where
  cursor_x : Int
  cursor_y : Int
deriving DecidableEq, Repr

/-- `move_cursor` from `src/common/cursor.c`: programs the VGA cursor
registers (port I/O, outside this state model) and sets the globals
`cursor_x := x`, `cursor_y := y` unconditionally. -/
def move_cursor (_ : CursorState) (x y : Int) : CursorState := ⟨x, y⟩

/-- `move_cursor_delta` from `src/common/cursor.c`: computes the target
position from the current globals and the deltas, returns without any
change when it lies outside the screen, and otherwise delegates to
`move_cursor`. -/
def move_cursor_delta (c : CursorState) (delta_x delta_y : Int) : CursorState :=
  let x := c.cursor_x + delta_x
  let y := c.cursor_y + delta_y
  if x ≥ VGA_WIDTH ∨ x < 0 ∨ y ≥ VGA_HEIGHT ∨ y < 0 then c
  else move_cursor c x y

/-! ## Game field — translated from `src/kernel.c` -/

/-- `#define FIELD_WIDTH 10` in `src/kernel.c`. -/
def FIELD_WIDTH : Nat := 10

/-- `#define FIELD_HEIGHT 20` in `src/kernel.c`. -/
def FIELD_HEIGHT : Nat := 20

/-- `#define OTHER_CHAR '@'` in `src/kernel.c`: the settled-block char. -/
def OTHER_CHAR : Char := '@'

/-- `you_loose_check` from `src/kernel.c`: scans the top row
(`field[j][0]` for `j` in `[0, FIELD_WIDTH)`) and returns 1 at the first
settled-block character, else 0.  The global `field` is passed
explicitly, and the (unmodified) field is returned alongside the C
return value, since the loop body performs no writes. -/
def you_loose_check (field : Nat → Nat → Char) : Nat × (Nat → Nat → Char) :=
  (if (List.range FIELD_WIDTH).any (fun j => decide (field j 0 = OTHER_CHAR)) then 1 else 0,
   field)

/-! ## Theorems -/

/-- Pushing a list of values that fits into the remaining capacity
succeeds and prepends the values in reverse order. -/
lemma pushList_ok (s : ValueStack) (vs : List Int)
    (h : s.values.length + vs.length ≤ s.capacity) :
    ValueStack.pushList s vs = .ok ⟨vs.reverse ++ s.values, s.capacity⟩ := by
  induction vs generalizing s with
  | nil => simp [ValueStack.pushList]
  | cons v vs ih =>
    have hne : ¬ s.values.length = s.capacity := by
      simp only [List.length_cons] at h; omega
    simp only [ValueStack.pushList, ValueStack.push, if_neg hne]
    rw [ih ⟨v :: s.values, s.capacity⟩ (by simp only [List.length_cons] at h ⊢; omega)]
    simp

/-- C5: for every Value Stack state satisfying the height invariant,
`push` fails with StackOverflow exactly when height equals capacity
(succeeding pushes store exactly the value and raise the depth by one,
so nothing is stored on failure), `pop` and `peek` fail with
StackUnderflow exactly when height is 0, and a sequence of pushes within
capacity from the empty stack yields a depth equal to the count pushed. -/
theorem claim_C5_stack_bounds (s : ValueStack) (v : Int) :
    (s.push v = .error .StackOverflow ↔ s.depth = s.capacity) ∧
    (∀ s₁, s.push v = .ok s₁ → s₁.values = v :: s.values ∧ s₁.depth = s.depth + 1) ∧
    (s.pop = .error .StackUnderflow ↔ s.depth = 0) ∧
    (s.peek = .error .StackUnderflow ↔ s.depth = 0) ∧
    (∀ (cap : Nat) (vs : List Int), vs.length ≤ cap →
      ∃ s₂, ValueStack.pushList ⟨[], cap⟩ vs = .ok s₂ ∧ s₂.depth = vs.length) := by
  refine ⟨?_, ?_, ?_, ?_, ?_⟩
  · unfold ValueStack.push ValueStack.depth
    split <;> simp_all
  · intro s₁ h₁
    unfold ValueStack.push at h₁
    split at h₁
    · exact absurd h₁ (by simp)
    · injection h₁ with h₁
      subst h₁
      exact ⟨rfl, rfl⟩
  · unfold ValueStack.pop ValueStack.depth
    cases s.values <;> simp
  · unfold ValueStack.peek ValueStack.depth
    cases s.values <;> simp
  · intro cap vs hle
    exact ⟨⟨vs.reverse, cap⟩, by simpa using pushList_ok ⟨[], cap⟩ vs (by simpa),
           by simp [ValueStack.depth]⟩

/-- Witness for C5 at concrete inputs: a full stack of capacity 2
overflows on push, and the empty stack underflows on pop. -/
theorem claim_C5_witness :
    ValueStack.push ⟨[5, 7], 2⟩ 9 = .error .StackOverflow ∧
    ValueStack.pop ⟨[], 4⟩ = .error .StackUnderflow :=
  ⟨(claim_C5_stack_bounds ⟨[5, 7], 2⟩ 9).1.mpr (by decide),
   (claim_C5_stack_bounds ⟨[], 4⟩ 0).2.2.1.mpr (by decide)⟩

/-- C6: on every stack strictly below capacity, `push v` then `pop`
succeeds, returns `v`, and restores exactly the prior stack (LIFO). -/
theorem claim_C6_lifo (s : ValueStack) (v : Int) (h : s.depth < s.capacity) :
    ∃ s₁, s.push v = .ok s₁ ∧ s₁.pop = .ok (v, s) ∧ s₁.depth = s.depth + 1 := by
  refine ⟨⟨v :: s.values, s.capacity⟩, ?_, rfl, rfl⟩
  unfold ValueStack.push
  rw [if_neg (by unfold ValueStack.depth at h; omega)]

/-- Witness for C6 at a concrete input. -/
theorem claim_C6_witness :
    ValueStack.depth ⟨[1], 3⟩ < 3 ∧
    ∃ s₁, ValueStack.push ⟨[1], 3⟩ 42 = .ok s₁ ∧
      ValueStack.pop s₁ = .ok (42, ⟨[1], 3⟩) ∧
      ValueStack.depth s₁ = ValueStack.depth ⟨[1], 3⟩ + 1 :=
  ⟨by decide, claim_C6_lifo ⟨[1], 3⟩ 42 (by decide)⟩

/-- C4: every binary arithmetic/comparison built-in pops its operands in
right-to-left postfix order (the deeper operand is the left one, so
`a b -` computes `a - b`), pushes exactly one result, and underflows
without side effects when fewer than two values are present — the error
reported through `execToken` carries the stack unchanged.  The line
`5 3 - .` outputs `2`. -/
theorem claim_C4_binops (t : TOKEN_TYPE) (f : Int → Int → Int)
    (hf : binOpFn t = some f) :
    (∀ (a b : Int) (rest : List Int) (cap : Nat) (out : List Int),
      applyPrim (mkOp t) ⟨b :: a :: rest, cap⟩ out = .ok (⟨f a b :: rest, cap⟩, out)) ∧
    (∀ (s : ValueStack) (out : List Int), s.values.length < 2 →
      applyPrim (mkOp t) s out = .error .StackUnderflow) ∧
    (∀ (fuel : Nat) (dict : List DictEntry) (s : ValueStack) (out : List Int),
      s.values.length < 2 →
      execToken fuel dict (mkOp t) s out = .error (.StackUnderflow, s, out)) ∧
    binOpFn TOKEN_MINUS = some (fun a b => a - b) ∧
    (interpretTokens 100 (initInterp 64) []
      [mkInt 5, mkInt 3, mkOp TOKEN_MINUS, mkOp TOKEN_DOT]).2.1 = [2] := by
  have hunder : ∀ (s : ValueStack) (out : List Int), s.values.length < 2 →
      applyPrim (mkOp t) s out = .error .StackUnderflow := by
    intro s out hlen
    obtain ⟨vals, cap⟩ := s
    rcases vals with _ | ⟨x, _ | ⟨y, tail⟩⟩
    · cases t <;> first | rfl | (simp [binOpFn] at hf)
    · cases t <;> first | rfl | (simp [binOpFn] at hf)
    · simp only [List.length_cons] at hlen; omega
  refine ⟨?_, hunder, ?_, rfl, rfl⟩
  · intro a b rest cap out
    cases t <;> simp only [binOpFn, Option.some.injEq, reduceCtorEq] at hf <;>
      subst hf <;> rfl
  · intro fuel dict s out hlen
    have hw : ¬ (mkOp t).type = TOKEN_WORD := by
      cases t <;> first | decide | (simp [binOpFn] at hf)
    simp only [execToken, if_neg hw, hunder s out hlen]

/-- Witness for C4 at a concrete input: subtraction on a two-value stack
and its underflow on a singleton stack. -/
theorem claim_C4_witness :
    binOpFn TOKEN_MINUS = some (fun a b => a - b) ∧
    applyPrim (mkOp TOKEN_MINUS) ⟨[3, 5], 8⟩ [] = .ok (⟨[2], 8⟩, []) ∧
    applyPrim (mkOp TOKEN_MINUS) ⟨[3], 8⟩ [] = .error .StackUnderflow :=
  ⟨rfl,
   (claim_C4_binops TOKEN_MINUS (fun a b => a - b) rfl).1 5 3 [] 8 [],
   (claim_C4_binops TOKEN_MINUS (fun a b => a - b) rfl).2.1 ⟨[3], 8⟩ [] (by decide)⟩

/-- C8: the line buffer holds at least 256 characters and the token
storage at least 128 tokens; `LINE_BUFFER_SIZE` and
`TOKENS_BUFFER_SIZE` from `src/forth/lexer.h` meet both bounds. -/
theorem claim_C8_buffer_sizes :
    LINE_BUFFER_SIZE = 256 ∧ TOKENS_BUFFER_SIZE = 128 ∧
    256 ≤ LINE_BUFFER_SIZE ∧ 128 ≤ TOKENS_BUFFER_SIZE :=
  ⟨rfl, rfl, by decide, by decide⟩

/-- C9: `move_cursor_delta` leaves the cursor state untouched exactly
when the target position `cursor_x + delta_x, cursor_y + delta_y` lies
outside `[0, VGA_WIDTH) × [0, VGA_HEIGHT)`, and otherwise moves the
cursor to exactly that position. -/
theorem claim_C9_move_cursor_delta (c : CursorState) (delta_x delta_y : Int) :
    (c.cursor_x + delta_x ≥ VGA_WIDTH ∨ c.cursor_x + delta_x < 0 ∨
     c.cursor_y + delta_y ≥ VGA_HEIGHT ∨ c.cursor_y + delta_y < 0 →
      move_cursor_delta c delta_x delta_y = c) ∧
    (0 ≤ c.cursor_x + delta_x ∧ c.cursor_x + delta_x < VGA_WIDTH ∧
     0 ≤ c.cursor_y + delta_y ∧ c.cursor_y + delta_y < VGA_HEIGHT →
      move_cursor_delta c delta_x delta_y =
        ⟨c.cursor_x + delta_x, c.cursor_y + delta_y⟩) := by
  constructor
  · intro hout
    simp only [move_cursor_delta]
    rw [if_pos hout]
  · intro hin
    simp only [move_cursor_delta, move_cursor]
    rw [if_neg (by omega)]

/-- Witness for C9 at concrete inputs: a move off the bottom-right corner
is ignored; an in-bounds move lands exactly on the target. -/
theorem claim_C9_witness :
    move_cursor_delta ⟨79, 24⟩ 1 0 = ⟨79, 24⟩ ∧
    move_cursor_delta ⟨0, 0⟩ 3 4 = ⟨3, 4⟩ :=
  ⟨(claim_C9_move_cursor_delta ⟨79, 24⟩ 1 0).1 (by decide),
   (claim_C9_move_cursor_delta ⟨0, 0⟩ 3 4).2 (by decide)⟩

/-- C10: `you_loose_check` returns 1 iff some column `j < FIELD_WIDTH`
has the settled-block character in the top row `field[j][0]`, returns 0
otherwise, and leaves the field unmodified. -/
theorem claim_C10_you_loose_check (field : Nat → Nat → Char) :
    ((you_loose_check field).1 = 1 ↔
      ∃ j, j < FIELD_WIDTH ∧ field j 0 = OTHER_CHAR) ∧
    ((you_loose_check field).1 = 0 ↔
      ¬ ∃ j, j < FIELD_WIDTH ∧ field j 0 = OTHER_CHAR) ∧
    (you_loose_check field).2 = field := by
  have hiff : (List.range FIELD_WIDTH).any
      (fun j => decide (field j 0 = OTHER_CHAR)) = true ↔
      ∃ j, j < FIELD_WIDTH ∧ field j 0 = OTHER_CHAR := by
    simp [List.any_eq_true, List.mem_range]
  refine ⟨?_, ?_, rfl⟩ <;> simp only [you_loose_check] <;> split <;>
    simp_all

/-- C7: the lexer maps each single operator character to exactly one
built-in tag (`%` to `TOKEN_MOD`) and to none outside those eleven
characters (no multi-character operators); the fixed built-in name table
holds exactly `DUP DROP SWAP CL ABS IF ELSE THEN`; and every token tag
is an integer literal, a word reference, or one of the nineteen built-in
tags of the fixed vocabulary. -/
theorem claim_C7_lexer_vocabulary :
    (charToken '+' = some TOKEN_PLUS ∧ charToken '-' = some TOKEN_MINUS ∧
     charToken '*' = some TOKEN_MUL ∧ charToken '/' = some TOKEN_DIV ∧
     charToken '%' = some TOKEN_MOD ∧ charToken '.' = some TOKEN_DOT ∧
     charToken ':' = some TOKEN_COLON ∧ charToken ';' = some TOKEN_SEMICOLON ∧
     charToken '=' = some TOKEN_EQ ∧ charToken '<' = some TOKEN_LESS ∧
     charToken '>' = some TOKEN_MORE) ∧
    (∀ c : Char, (charToken c).isSome ↔ c ∈ opChars) ∧
    (builtinWordToken "DUP" = some TOKEN_DUP ∧
     builtinWordToken "DROP" = some TOKEN_DROP ∧
     builtinWordToken "SWAP" = some TOKEN_SWAP ∧
     builtinWordToken "CL" = some TOKEN_CL ∧
     builtinWordToken "ABS" = some TOKEN_ABS ∧
     builtinWordToken "IF" = some TOKEN_IF ∧
     builtinWordToken "ELSE" = some TOKEN_ELSE ∧
     builtinWordToken "THEN" = some TOKEN_THEN) ∧
    (∀ t : TOKEN_TYPE, t = TOKEN_INT ∨ t = TOKEN_WORD ∨ t ∈ builtinTags) := by
  refine ⟨by decide, ?_, by decide, ?_⟩
  · have hnone : ∀ c : Char, c ∉ opChars → charToken c = none := by
      intro c hc
      simp only [opChars, List.mem_cons, List.not_mem_nil, or_false, not_or] at hc
      obtain ⟨h1, h2, h3, h4, h5, h6, h7, h8, h9, h10, h11⟩ := hc
      simp [charToken, h1, h2, h3, h4, h5, h6, h7, h8, h9, h10, h11]
    intro c
    by_cases hc : c ∈ opChars
    · simp only [hc, iff_true]
      simp only [opChars, List.mem_cons, List.not_mem_nil, or_false] at hc
      rcases hc with rfl | rfl | rfl | rfl | rfl | rfl | rfl | rfl | rfl | rfl | rfl <;> decide
    · simp [hnone c hc, hc]
  · intro t
    cases t <;> simp [builtinTags]

/-- C1: in COMPILE mode, `ELSE` or `THEN` with an empty patch stack fails
with UnbalancedControlFlow; the definition-end token `;` fails with
UnbalancedControlFlow whenever the patch stack is non-empty, and with an
empty patch stack it finalizes the active entry — installing it in the
Dictionary under its name, where lookup now finds it — and returns the
Interpreter to EXECUTE mode for the rest of the line. -/
theorem claim_C1_compile_control_flow (fuel : Nat) (st : Interp)
    (out : List Int) (ts : List Token) (entry : DictEntry)
    (hmode : st.mode = LEXER_STATE_COMPILE) (hcur : st.current = some entry) :
    (st.patchStack = [] →
      interpretTokens fuel st out (mkOp TOKEN_ELSE :: ts)
        = (failState st st.stack, out, some .UnbalancedControlFlow) ∧
      interpretTokens fuel st out (mkOp TOKEN_THEN :: ts)
        = (failState st st.stack, out, some .UnbalancedControlFlow)) ∧
    (st.patchStack ≠ [] →
      interpretTokens fuel st out (mkOp TOKEN_SEMICOLON :: ts)
        = (failState st st.stack, out, some .UnbalancedControlFlow)) ∧
    (st.patchStack = [] →
      interpretTokens fuel st out (mkOp TOKEN_SEMICOLON :: ts)
        = interpretTokens fuel
            { st with mode := LEXER_STATE_EXECUTE,
                      dict := entry :: st.dict, current := none } out ts ∧
      dictLookup (entry :: st.dict) entry.name = some entry) := by
  obtain ⟨mode, stack, dict, current, patch⟩ := st
  cases mode
  case LEXER_STATE_EXECUTE => exact nomatch hmode
  case LEXER_STATE_COMPILE =>
  cases current
  case none => exact nomatch hcur
  case some e =>
  obtain rfl : e = entry := by simpa using hcur
  refine ⟨?_, ?_, ?_⟩
  · rintro rfl
    exact ⟨rfl, rfl⟩
  · intro hne
    cases patch with
    | nil => exact absurd rfl hne
    | cons p ps => rfl
  · rintro rfl
    refine ⟨rfl, ?_⟩
    simp [dictLookup]

/-- Witness for C1 at concrete inputs: with an empty patch stack `ELSE`
fails, with a one-element patch stack `;` fails, and a finalized entry is
found in the Dictionary under its name. -/
theorem claim_C1_witness :
    interpretTokens 9 ⟨LEXER_STATE_COMPILE, ⟨[], 8⟩, [], some ⟨"SQ", []⟩, []⟩ []
        [mkOp TOKEN_ELSE]
      = (failState ⟨LEXER_STATE_COMPILE, ⟨[], 8⟩, [], some ⟨"SQ", []⟩, []⟩ ⟨[], 8⟩,
         [], some .UnbalancedControlFlow) ∧
    interpretTokens 9 ⟨LEXER_STATE_COMPILE, ⟨[], 8⟩, [], some ⟨"SQ", []⟩, [0]⟩ []
        [mkOp TOKEN_SEMICOLON]
      = (failState ⟨LEXER_STATE_COMPILE, ⟨[], 8⟩, [], some ⟨"SQ", []⟩, [0]⟩ ⟨[], 8⟩,
         [], some .UnbalancedControlFlow) ∧
    dictLookup [⟨"SQ", []⟩] "SQ" = some ⟨"SQ", []⟩ :=
  ⟨((claim_C1_compile_control_flow 9
      ⟨LEXER_STATE_COMPILE, ⟨[], 8⟩, [], some ⟨"SQ", []⟩, []⟩ [] [] ⟨"SQ", []⟩
      rfl rfl).1 rfl).1,
   (claim_C1_compile_control_flow 9
      ⟨LEXER_STATE_COMPILE, ⟨[], 8⟩, [], some ⟨"SQ", []⟩, [0]⟩ [] [] ⟨"SQ", []⟩
      rfl rfl).2.1 (by simp),
   ((claim_C1_compile_control_flow 9
      ⟨LEXER_STATE_COMPILE, ⟨[], 8⟩, [], some ⟨"SQ", []⟩, []⟩ [] [] ⟨"SQ", []⟩
      rfl rfl).2.2 rfl).2⟩

/-- C2 counterexample: the claim asserts that after compiling
`: ABSIFY DUP 0 < IF 0 - THEN ;`, the line `-5 ABSIFY .` outputs `5`;
under the declared operand order (`a b -` computes `a - b`, as the claim
itself states and as `5 3 - . = 2` requires), the compiled body computes
`-5 - 0 = -5` when the branch falls through, so the run outputs `-5`. -/
theorem claim_C2_counterexample :
    (interpretTokens 100 (initInterp 64) []
      (absifyDef ++ [mkInt (-5), mkWord "ABSIFY", mkOp TOKEN_DOT])).2.1 = [-5] ∧
    (interpretTokens 100 (initInterp 64) []
      (absifyDef ++ [mkInt (-5), mkWord "ABSIFY", mkOp TOKEN_DOT])).2.1 ≠ [5] :=
  ⟨rfl, by decide⟩

/-- C2 (amended): a resolved conditional branch in a compiled body pops
exactly one value; zero jumps control to the recorded target, any
non-zero value falls through to the next position.  After compiling
`: ABSIFY DUP 0 < IF 0 - THEN ;`, the line `5 ABSIFY .` outputs `5`,
while the line `-5 ABSIFY .` outputs `-5` (the guarded body `0 -`
subtracts zero rather than negating, so ABSIFY is the identity). -/
theorem claim_C2_branch_semantics (f : Nat) (dict : List DictEntry)
    (body : List BodyItem) (pc tgt : Nat) (s : ValueStack) (out : List Int)
    (v : Int) (rest : List Int)
    (hpc : body.get? pc = some (.branchIfFalse (some tgt)))
    (hs : s.values = v :: rest) :
    execBody (f + 1) dict body pc s out
      = (if v = 0 then execBody f dict body tgt { s with values := rest } out
         else execBody f dict body (pc + 1) { s with values := rest } out) ∧
    (interpretTokens 100 (initInterp 64) []
      (absifyDef ++ [mkInt 5, mkWord "ABSIFY", mkOp TOKEN_DOT])).2.1 = [5] ∧
    (interpretTokens 100 (initInterp 64) []
      (absifyDef ++ [mkInt (-5), mkWord "ABSIFY", mkOp TOKEN_DOT])).2.1 = [-5] := by
  refine ⟨?_, rfl, rfl⟩
  obtain ⟨hlt, hget⟩ := List.get?_eq_some.mp hpc
  obtain ⟨vals, cap⟩ := s
  obtain rfl : vals = v :: rest := hs
  rw [execBody, dif_pos hlt, hget]

/-- Witness for C2 (amended) at a concrete input: a resolved branch over
a popped zero jumps to its target. -/
theorem claim_C2_witness :
    (interpretTokens 100 (initInterp 64) []
      (absifyDef ++ [mkInt 5, mkWord "ABSIFY", mkOp TOKEN_DOT])).2.1 = [5] :=
  (claim_C2_branch_semantics 5 [] [.branchIfFalse (some 1)] 0 1 ⟨[0], 4⟩ [] 0 []
    rfl rfl).2.1

/-! Small-step unfolding equations for `interpretTokens`, one per branch
of the state machine; used below to analyse the failure policy. -/

lemma it_exec_colon_nil (fuel : Nat) (st : Interp) (out : List Int) (t : Token)
    (hmode : st.mode = LEXER_STATE_EXECUTE) (hty : t.type = TOKEN_COLON) :
    interpretTokens fuel st out [t]
      = (failState st st.stack, out, some .InvalidDefinition) := by
  obtain ⟨mode, stack, dict, current, patch⟩ := st
  obtain ⟨iv, sv, lv, ty⟩ := t
  cases mode
  · exact nomatch hmode
  · cases ty <;> first | rfl | exact nomatch hty

lemma it_exec_colon_word (fuel : Nat) (st : Interp) (out : List Int)
    (t n : Token) (ts : List Token)
    (hmode : st.mode = LEXER_STATE_EXECUTE) (hty : t.type = TOKEN_COLON)
    (hn : n.type = TOKEN_WORD) :
    interpretTokens fuel st out (t :: n :: ts)
      = interpretTokens fuel
          { st with mode := LEXER_STATE_COMPILE,
                    current := some ⟨n.value, []⟩, patchStack := [] } out ts := by
  obtain ⟨mode, stack, dict, current, patch⟩ := st
  obtain ⟨iv, sv, lv, ty⟩ := t
  obtain ⟨niv, nsv, nlv, nty⟩ := n
  cases mode
  · exact nomatch hmode
  · cases ty
    case TOKEN_COLON => cases nty <;> first | rfl | exact nomatch hn
    all_goals exact nomatch hty

lemma it_exec_colon_nonword (fuel : Nat) (st : Interp) (out : List Int)
    (t n : Token) (ts : List Token)
    (hmode : st.mode = LEXER_STATE_EXECUTE) (hty : t.type = TOKEN_COLON)
    (hn : ¬ n.type = TOKEN_WORD) :
    interpretTokens fuel st out (t :: n :: ts)
      = (failState st st.stack, out, some .InvalidDefinition) := by
  obtain ⟨mode, stack, dict, current, patch⟩ := st
  obtain ⟨iv, sv, lv, ty⟩ := t
  obtain ⟨niv, nsv, nlv, nty⟩ := n
  cases mode
  · exact nomatch hmode
  · cases ty
    case TOKEN_COLON => cases nty <;> first | (exact absurd rfl hn) | rfl
    all_goals exact nomatch hty

lemma it_exec_step_ok (fuel : Nat) (st : Interp) (out : List Int)
    (t : Token) (ts : List Token) (s₁ : ValueStack) (out₁ : List Int)
    (hmode : st.mode = LEXER_STATE_EXECUTE) (hty : ¬ t.type = TOKEN_COLON)
    (hok : execToken fuel st.dict t st.stack out = .ok (s₁, out₁)) :
    interpretTokens fuel st out (t :: ts)
      = interpretTokens fuel { st with stack := s₁ } out₁ ts := by
  obtain ⟨mode, stack, dict, current, patch⟩ := st
  obtain ⟨iv, sv, lv, ty⟩ := t
  cases mode
  · exact nomatch hmode
  · cases ty <;> first
      | exact absurd rfl hty
      | (simp only [interpretTokens]; rw [hok])

lemma it_exec_step_err (fuel : Nat) (st : Interp) (out : List Int)
    (t : Token) (ts : List Token) (e : ForthError) (sf : ValueStack)
    (outf : List Int)
    (hmode : st.mode = LEXER_STATE_EXECUTE) (hty : ¬ t.type = TOKEN_COLON)
    (herr : execToken fuel st.dict t st.stack out = .error (e, sf, outf)) :
    interpretTokens fuel st out (t :: ts)
      = (failState st sf, outf, some e) := by
  obtain ⟨mode, stack, dict, current, patch⟩ := st
  obtain ⟨iv, sv, lv, ty⟩ := t
  cases mode
  · exact nomatch hmode
  · cases ty <;> first
      | exact absurd rfl hty
      | (simp only [interpretTokens]; rw [herr])

lemma it_compile_nocur (fuel : Nat) (st : Interp) (out : List Int)
    (t : Token) (ts : List Token)
    (hmode : st.mode = LEXER_STATE_COMPILE) (hcur : st.current = none) :
    interpretTokens fuel st out (t :: ts)
      = (failState st st.stack, out, some .InvalidDefinition) := by
  obtain ⟨mode, stack, dict, current, patch⟩ := st
  cases mode
  case LEXER_STATE_EXECUTE => exact nomatch hmode
  case LEXER_STATE_COMPILE =>
  cases current
  · rfl
  · exact nomatch hcur

lemma it_compile_if (fuel : Nat) (st : Interp) (out : List Int)
    (t : Token) (ts : List Token) (entry : DictEntry)
    (hmode : st.mode = LEXER_STATE_COMPILE) (hcur : st.current = some entry)
    (hty : t.type = TOKEN_IF) :
    interpretTokens fuel st out (t :: ts)
      = interpretTokens fuel
          { st with current := some ⟨entry.name, entry.body ++ [.branchIfFalse none]⟩,
                    patchStack := entry.body.length :: st.patchStack } out ts := by
  obtain ⟨mode, stack, dict, current, patch⟩ := st
  obtain ⟨iv, sv, lv, ty⟩ := t
  cases mode
  case LEXER_STATE_EXECUTE => exact nomatch hmode
  case LEXER_STATE_COMPILE =>
  cases current
  case none => exact nomatch hcur
  case some e =>
  obtain rfl : e = entry := Option.some.inj hcur
  cases ty <;> first | rfl | exact nomatch hty

lemma it_compile_else_nil (fuel : Nat) (st : Interp) (out : List Int)
    (t : Token) (ts : List Token) (entry : DictEntry)
    (hmode : st.mode = LEXER_STATE_COMPILE) (hcur : st.current = some entry)
    (hty : t.type = TOKEN_ELSE) (hpatch : st.patchStack = []) :
    interpretTokens fuel st out (t :: ts)
      = (failState st st.stack, out, some .UnbalancedControlFlow) := by
  obtain ⟨mode, stack, dict, current, patch⟩ := st
  obtain ⟨iv, sv, lv, ty⟩ := t
  cases mode
  case LEXER_STATE_EXECUTE => exact nomatch hmode
  case LEXER_STATE_COMPILE =>
  cases current
  case none => exact nomatch hcur
  case some e =>
  obtain rfl : e = entry := Option.some.inj hcur
  cases patch
  case cons => exact nomatch hpatch
  case nil => cases ty <;> first | rfl | exact nomatch hty

lemma it_compile_else_cons (fuel : Nat) (st : Interp) (out : List Int)
    (t : Token) (ts : List Token) (entry : DictEntry) (pos : Nat) (rest : List Nat)
    (hmode : st.mode = LEXER_STATE_COMPILE) (hcur : st.current = some entry)
    (hty : t.type = TOKEN_ELSE) (hpatch : st.patchStack = pos :: rest) :
    interpretTokens fuel st out (t :: ts)
      = interpretTokens fuel
          { st with current := some ⟨entry.name,
                      setTarget entry.body pos (entry.body.length + 1)
                        ++ [.branch none]⟩,
                    patchStack := entry.body.length :: rest } out ts := by
  obtain ⟨mode, stack, dict, current, patch⟩ := st
  obtain ⟨iv, sv, lv, ty⟩ := t
  cases mode
  case LEXER_STATE_EXECUTE => exact nomatch hmode
  case LEXER_STATE_COMPILE =>
  cases current
  case none => exact nomatch hcur
  case some e =>
  obtain rfl : e = entry := Option.some.inj hcur
  cases patch
  case nil => exact nomatch hpatch
  case cons p ps =>
  obtain ⟨rfl, rfl⟩ : p = pos ∧ ps = rest := by
    have h := List.cons.inj hpatch
    exact ⟨h.1, h.2⟩
  cases ty <;> first | rfl | exact nomatch hty

lemma it_compile_then_nil (fuel : Nat) (st : Interp) (out : List Int)
    (t : Token) (ts : List Token) (entry : DictEntry)
    (hmode : st.mode = LEXER_STATE_COMPILE) (hcur : st.current = some entry)
    (hty : t.type = TOKEN_THEN) (hpatch : st.patchStack = []) :
    interpretTokens fuel st out (t :: ts)
      = (failState st st.stack, out, some .UnbalancedControlFlow) := by
  obtain ⟨mode, stack, dict, current, patch⟩ := st
  obtain ⟨iv, sv, lv, ty⟩ := t
  cases mode
  case LEXER_STATE_EXECUTE => exact nomatch hmode
  case LEXER_STATE_COMPILE =>
  cases current
  case none => exact nomatch hcur
  case some e =>
  obtain rfl : e = entry := Option.some.inj hcur
  cases patch
  case cons => exact nomatch hpatch
  case nil => cases ty <;> first | rfl | exact nomatch hty

lemma it_compile_then_cons (fuel : Nat) (st : Interp) (out : List Int)
    (t : Token) (ts : List Token) (entry : DictEntry) (pos : Nat) (rest : List Nat)
    (hmode : st.mode = LEXER_STATE_COMPILE) (hcur : st.current = some entry)
    (hty : t.type = TOKEN_THEN) (hpatch : st.patchStack = pos :: rest) :
    interpretTokens fuel st out (t :: ts)
      = interpretTokens fuel
          { st with current := some ⟨entry.name, setTarget entry.body pos entry.body.length⟩,
                    patchStack := rest } out ts := by
  obtain ⟨mode, stack, dict, current, patch⟩ := st
  obtain ⟨iv, sv, lv, ty⟩ := t
  cases mode
  case LEXER_STATE_EXECUTE => exact nomatch hmode
  case LEXER_STATE_COMPILE =>
  cases current
  case none => exact nomatch hcur
  case some e =>
  obtain rfl : e = entry := Option.some.inj hcur
  cases patch
  case nil => exact nomatch hpatch
  case cons p ps =>
  obtain ⟨rfl, rfl⟩ : p = pos ∧ ps = rest := by
    have h := List.cons.inj hpatch
    exact ⟨h.1, h.2⟩
  cases ty <;> first | rfl | exact nomatch hty

lemma it_compile_semi_nil (fuel : Nat) (st : Interp) (out : List Int)
    (t : Token) (ts : List Token) (entry : DictEntry)
    (hmode : st.mode = LEXER_STATE_COMPILE) (hcur : st.current = some entry)
    (hty : t.type = TOKEN_SEMICOLON) (hpatch : st.patchStack = []) :
    interpretTokens fuel st out (t :: ts)
      = interpretTokens fuel
          { st with mode := LEXER_STATE_EXECUTE,
                    dict := entry :: st.dict, current := none } out ts := by
  obtain ⟨mode, stack, dict, current, patch⟩ := st
  obtain ⟨iv, sv, lv, ty⟩ := t
  cases mode
  case LEXER_STATE_EXECUTE => exact nomatch hmode
  case LEXER_STATE_COMPILE =>
  cases current
  case none => exact nomatch hcur
  case some e =>
  obtain rfl : e = entry := Option.some.inj hcur
  cases patch
  case cons => exact nomatch hpatch
  case nil => cases ty <;> first | rfl | exact nomatch hty

lemma it_compile_semi_cons (fuel : Nat) (st : Interp) (out : List Int)
    (t : Token) (ts : List Token) (entry : DictEntry) (pos : Nat) (rest : List Nat)
    (hmode : st.mode = LEXER_STATE_COMPILE) (hcur : st.current = some entry)
    (hty : t.type = TOKEN_SEMICOLON) (hpatch : st.patchStack = pos :: rest) :
    interpretTokens fuel st out (t :: ts)
      = (failState st st.stack, out, some .UnbalancedControlFlow) := by
  obtain ⟨mode, stack, dict, current, patch⟩ := st
  obtain ⟨iv, sv, lv, ty⟩ := t
  cases mode
  case LEXER_STATE_EXECUTE => exact nomatch hmode
  case LEXER_STATE_COMPILE =>
  cases current
  case none => exact nomatch hcur
  case some e =>
  obtain rfl : e = entry := Option.some.inj hcur
  cases patch
  case nil => exact nomatch hpatch
  case cons p ps => cases ty <;> first | rfl | exact nomatch hty

lemma it_compile_colon (fuel : Nat) (st : Interp) (out : List Int)
    (t : Token) (ts : List Token) (entry : DictEntry)
    (hmode : st.mode = LEXER_STATE_COMPILE) (hcur : st.current = some entry)
    (hty : t.type = TOKEN_COLON) :
    interpretTokens fuel st out (t :: ts)
      = (failState st st.stack, out, some .NestedDefinition) := by
  obtain ⟨mode, stack, dict, current, patch⟩ := st
  obtain ⟨iv, sv, lv, ty⟩ := t
  cases mode
  case LEXER_STATE_EXECUTE => exact nomatch hmode
  case LEXER_STATE_COMPILE =>
  cases current
  case none => exact nomatch hcur
  case some e =>
  obtain rfl : e = entry := Option.some.inj hcur
  cases ty <;> first | rfl | exact nomatch hty

lemma it_compile_other (fuel : Nat) (st : Interp) (out : List Int)
    (t : Token) (ts : List Token) (entry : DictEntry)
    (hmode : st.mode = LEXER_STATE_COMPILE) (hcur : st.current = some entry)
    (h1 : ¬ t.type = TOKEN_IF) (h2 : ¬ t.type = TOKEN_ELSE)
    (h3 : ¬ t.type = TOKEN_THEN) (h4 : ¬ t.type = TOKEN_SEMICOLON)
    (h5 : ¬ t.type = TOKEN_COLON) :
    interpretTokens fuel st out (t :: ts)
      = interpretTokens fuel
          { st with current := some ⟨entry.name, entry.body ++ [.tok t]⟩ } out ts := by
  obtain ⟨mode, stack, dict, current, patch⟩ := st
  obtain ⟨iv, sv, lv, ty⟩ := t
  cases mode
  case LEXER_STATE_EXECUTE => exact nomatch hmode
  case LEXER_STATE_COMPILE =>
  cases current
  case none => exact nomatch hcur
  case some e =>
  obtain rfl : e = entry := Option.some.inj hcur
  cases ty <;> first
    | rfl
    | exact absurd rfl h1
    | exact absurd rfl h2
    | exact absurd rfl h3
    | exact absurd rfl h4
    | exact absurd rfl h5

/-- On every failing line the interpreter lands in EXECUTE mode with the
in-progress definition discarded and the patch stack cleared. -/
lemma interpretTokens_error_reset (fuel : Nat) (st : Interp) (out : List Int)
    (ts : List Token) :
    ∀ (st₂ : Interp) (out₂ : List Int) (e : ForthError),
      interpretTokens fuel st out ts = (st₂, out₂, some e) →
      st₂.mode = LEXER_STATE_EXECUTE ∧ st₂.current = none ∧ st₂.patchStack = [] := by
  induction st, out, ts using interpretTokens.induct fuel with
  | case1 st out =>
    intro st₂ out₂ e herr
    exact nomatch herr
  | case2 st out n hmode hty =>
    intro st₂ out₂ e herr
    rw [it_exec_colon_nil fuel st out n hmode hty] at herr
    injection herr with h1 h23
    subst h1
    exact ⟨rfl, rfl, rfl⟩
  | case3 st out n hmode hty n₁ ts' hn₁ ih =>
    intro st₂ out₂ e herr
    rw [it_exec_colon_word fuel st out n n₁ ts' hmode hty hn₁] at herr
    exact ih st₂ out₂ e herr
  | case4 st out n hmode hty n₁ ts' hn₁ =>
    intro st₂ out₂ e herr
    rw [it_exec_colon_nonword fuel st out n n₁ ts' hmode hty hn₁] at herr
    injection herr with h1 h23
    subst h1
    exact ⟨rfl, rfl, rfl⟩
  | case5 st out n ts' hmode s₁ out₁ hok hnc ih =>
    intro st₂ out₂ e herr
    rw [it_exec_step_ok fuel st out n ts' s₁ out₁ hmode hnc hok] at herr
    exact ih st₂ out₂ e herr
  | case6 st out n ts' hmode e₁ sf outf herr₁ hnc =>
    intro st₂ out₂ e herr
    rw [it_exec_step_err fuel st out n ts' e₁ sf outf hmode hnc herr₁] at herr
    injection herr with h1 h23
    subst h1
    exact ⟨rfl, rfl, rfl⟩
  | case7 st out n ts' hmode hcur =>
    intro st₂ out₂ e herr
    rw [it_compile_nocur fuel st out n ts' hmode hcur] at herr
    injection herr with h1 h23
    subst h1
    exact ⟨rfl, rfl, rfl⟩
  | case8 st out n ts' hmode entry hcur hty ih =>
    intro st₂ out₂ e herr
    rw [it_compile_if fuel st out n ts' entry hmode hcur hty] at herr
    exact ih st₂ out₂ e herr
  | case9 st out n ts' hmode entry hcur hty hpatch =>
    intro st₂ out₂ e herr
    rw [it_compile_else_nil fuel st out n ts' entry hmode hcur hty hpatch] at herr
    injection herr with h1 h23
    subst h1
    exact ⟨rfl, rfl, rfl⟩
  | case10 st out n ts' hmode entry hcur hty pos rest hpatch ih =>
    intro st₂ out₂ e herr
    rw [it_compile_else_cons fuel st out n ts' entry pos rest hmode hcur hty hpatch] at herr
    exact ih st₂ out₂ e herr
  | case11 st out n ts' hmode entry hcur hty hpatch =>
    intro st₂ out₂ e herr
    rw [it_compile_then_nil fuel st out n ts' entry hmode hcur hty hpatch] at herr
    injection herr with h1 h23
    subst h1
    exact ⟨rfl, rfl, rfl⟩
  | case12 st out n ts' hmode entry hcur hty pos rest hpatch ih =>
    intro st₂ out₂ e herr
    rw [it_compile_then_cons fuel st out n ts' entry pos rest hmode hcur hty hpatch] at herr
    exact ih st₂ out₂ e herr
  | case13 st out n ts' hmode entry hcur hty hpatch ih =>
    intro st₂ out₂ e herr
    rw [it_compile_semi_nil fuel st out n ts' entry hmode hcur hty hpatch] at herr
    exact ih st₂ out₂ e herr
  | case14 st out n ts' hmode entry hcur hty pos rest hpatch =>
    intro st₂ out₂ e herr
    rw [it_compile_semi_cons fuel st out n ts' entry pos rest hmode hcur hty hpatch] at herr
    injection herr with h1 h23
    subst h1
    exact ⟨rfl, rfl, rfl⟩
  | case15 st out n ts' hmode entry hcur hty =>
    intro st₂ out₂ e herr
    rw [it_compile_colon fuel st out n ts' entry hmode hcur hty] at herr
    injection herr with h1 h23
    subst h1
    exact ⟨rfl, rfl, rfl⟩
  | case16 st out n ts' hmode entry hcur h1 h2 h3 h4 h5 ih =>
    intro st₂ out₂ e herr
    rw [it_compile_other fuel st out n ts' entry hmode hcur h1 h2 h3 h4 h5] at herr
    exact ih st₂ out₂ e herr

lemma getLast?_cons_of_some {α : Type} (a : α) {l : List α} {x : α}
    (h : l.getLast? = some x) : (a :: l).getLast? = some x := by
  cases l with
  | nil => exact nomatch h
  | cons b l' => rwa [List.getLast?_cons_cons]

/-- Once a line has failed, tokens after the failing one are never
examined: extending the line changes nothing.  (The one proviso is a
line ending in the definition-start token `:`, whose failure is the
absence of a following name, a property of the line end itself.) -/
lemma interpretTokens_append_error (fuel : Nat) (st : Interp) (out : List Int)
    (ts : List Token) :
    ∀ (ts₂ : List Token) (st₂ : Interp) (out₂ : List Int) (e : ForthError),
      (∀ tl, ts.getLast? = some tl → ¬ tl.type = TOKEN_COLON) →
      interpretTokens fuel st out ts = (st₂, out₂, some e) →
      interpretTokens fuel st out (ts ++ ts₂) = (st₂, out₂, some e) := by
  induction st, out, ts using interpretTokens.induct fuel with
  | case1 st out =>
    intro ts₂ st₂ out₂ e hlast herr
    exact nomatch herr
  | case2 st out n hmode hty =>
    intro ts₂ st₂ out₂ e hlast herr
    exact absurd hty (hlast n (by simp))
  | case3 st out n hmode hty n₁ ts' hn₁ ih =>
    intro ts₂ st₂ out₂ e hlast herr
    rw [it_exec_colon_word fuel st out n n₁ ts' hmode hty hn₁] at herr
    rw [List.cons_append, List.cons_append,
        it_exec_colon_word fuel st out n n₁ (ts' ++ ts₂) hmode hty hn₁]
    exact ih ts₂ st₂ out₂ e
      (fun tl h => hlast tl (getLast?_cons_of_some n (getLast?_cons_of_some n₁ h)))
      herr
  | case4 st out n hmode hty n₁ ts' hn₁ =>
    intro ts₂ st₂ out₂ e hlast herr
    rw [it_exec_colon_nonword fuel st out n n₁ ts' hmode hty hn₁] at herr
    rw [List.cons_append, List.cons_append,
        it_exec_colon_nonword fuel st out n n₁ (ts' ++ ts₂) hmode hty hn₁]
    exact herr
  | case5 st out n ts' hmode s₁ out₁ hok hnc ih =>
    intro ts₂ st₂ out₂ e hlast herr
    rw [it_exec_step_ok fuel st out n ts' s₁ out₁ hmode hnc hok] at herr
    rw [List.cons_append,
        it_exec_step_ok fuel st out n (ts' ++ ts₂) s₁ out₁ hmode hnc hok]
    exact ih ts₂ st₂ out₂ e (fun tl h => hlast tl (getLast?_cons_of_some n h)) herr
  | case6 st out n ts' hmode e₁ sf outf herr₁ hnc =>
    intro ts₂ st₂ out₂ e hlast herr
    rw [it_exec_step_err fuel st out n ts' e₁ sf outf hmode hnc herr₁] at herr
    rw [List.cons_append,
        it_exec_step_err fuel st out n (ts' ++ ts₂) e₁ sf outf hmode hnc herr₁]
    exact herr
  | case7 st out n ts' hmode hcur =>
    intro ts₂ st₂ out₂ e hlast herr
    rw [it_compile_nocur fuel st out n ts' hmode hcur] at herr
    rw [List.cons_append, it_compile_nocur fuel st out n (ts' ++ ts₂) hmode hcur]
    exact herr
  | case8 st out n ts' hmode entry hcur hty ih =>
    intro ts₂ st₂ out₂ e hlast herr
    rw [it_compile_if fuel st out n ts' entry hmode hcur hty] at herr
    rw [List.cons_append, it_compile_if fuel st out n (ts' ++ ts₂) entry hmode hcur hty]
    exact ih ts₂ st₂ out₂ e (fun tl h => hlast tl (getLast?_cons_of_some n h)) herr
  | case9 st out n ts' hmode entry hcur hty hpatch =>
    intro ts₂ st₂ out₂ e hlast herr
    rw [it_compile_else_nil fuel st out n ts' entry hmode hcur hty hpatch] at herr
    rw [List.cons_append,
        it_compile_else_nil fuel st out n (ts' ++ ts₂) entry hmode hcur hty hpatch]
    exact herr
  | case10 st out n ts' hmode entry hcur hty pos rest hpatch ih =>
    intro ts₂ st₂ out₂ e hlast herr
    rw [it_compile_else_cons fuel st out n ts' entry pos rest
          hmode hcur hty hpatch] at herr
    rw [List.cons_append,
        it_compile_else_cons fuel st out n (ts' ++ ts₂) entry pos rest
          hmode hcur hty hpatch]
    exact ih ts₂ st₂ out₂ e (fun tl h => hlast tl (getLast?_cons_of_some n h)) herr
  | case11 st out n ts' hmode entry hcur hty hpatch =>
    intro ts₂ st₂ out₂ e hlast herr
    rw [it_compile_then_nil fuel st out n ts' entry hmode hcur hty hpatch] at herr
    rw [List.cons_append,
        it_compile_then_nil fuel st out n (ts' ++ ts₂) entry hmode hcur hty hpatch]
    exact herr
  | case12 st out n ts' hmode entry hcur hty pos rest hpatch ih =>
    intro ts₂ st₂ out₂ e hlast herr
    rw [it_compile_then_cons fuel st out n ts' entry pos rest
          hmode hcur hty hpatch] at herr
    rw [List.cons_append,
        it_compile_then_cons fuel st out n (ts' ++ ts₂) entry pos rest
          hmode hcur hty hpatch]
    exact ih ts₂ st₂ out₂ e (fun tl h => hlast tl (getLast?_cons_of_some n h)) herr
  | case13 st out n ts' hmode entry hcur hty hpatch ih =>
    intro ts₂ st₂ out₂ e hlast herr
    rw [it_compile_semi_nil fuel st out n ts' entry hmode hcur hty hpatch] at herr
    rw [List.cons_append,
        it_compile_semi_nil fuel st out n (ts' ++ ts₂) entry hmode hcur hty hpatch]
    exact ih ts₂ st₂ out₂ e (fun tl h => hlast tl (getLast?_cons_of_some n h)) herr
  | case14 st out n ts' hmode entry hcur hty pos rest hpatch =>
    intro ts₂ st₂ out₂ e hlast herr
    rw [it_compile_semi_cons fuel st out n ts' entry pos rest
          hmode hcur hty hpatch] at herr
    rw [List.cons_append,
        it_compile_semi_cons fuel st out n (ts' ++ ts₂) entry pos rest
          hmode hcur hty hpatch]
    exact herr
  | case15 st out n ts' hmode entry hcur hty =>
    intro ts₂ st₂ out₂ e hlast herr
    rw [it_compile_colon fuel st out n ts' entry hmode hcur hty] at herr
    rw [List.cons_append, it_compile_colon fuel st out n (ts' ++ ts₂) entry hmode hcur hty]
    exact herr
  | case16 st out n ts' hmode entry hcur h1 h2 h3 h4 h5 ih =>
    intro ts₂ st₂ out₂ e hlast herr
    rw [it_compile_other fuel st out n ts' entry hmode hcur h1 h2 h3 h4 h5] at herr
    rw [List.cons_append,
        it_compile_other fuel st out n (ts' ++ ts₂) entry hmode hcur h1 h2 h3 h4 h5]
    exact ih ts₂ st₂ out₂ e (fun tl h => hlast tl (getLast?_cons_of_some n h)) herr

/-- A failing `execToken` on a non-word token reports the stack and the
output it was given: the primitive never partially applies its effect. -/
lemma execToken_err_frame (fuel : Nat) (dict : List DictEntry) (t : Token)
    (s sf : ValueStack) (out outf : List Int) (e : ForthError)
    (hw : ¬ t.type = TOKEN_WORD)
    (herr : execToken fuel dict t s out = .error (e, sf, outf)) :
    sf = s ∧ outf = out := by
  unfold execToken at herr
  rw [if_neg hw] at herr
  cases hap : applyPrim t s out with
  | ok r =>
    rw [hap] at herr
    exact nomatch herr
  | error e₁ =>
    rw [hap] at herr
    injection herr with h
    injection h with he h2
    injection h2 with hs ho
    exact ⟨hs.symm, ho.symm⟩

/-- A single failing token leaves the Dictionary untouched, and when it
is not a user-word call it also leaves the Value Stack and the output
exactly as they were. -/
lemma interpretTokens_single_frame (fuel : Nat) (st : Interp) (out : List Int)
    (t : Token) (st₃ : Interp) (out₃ : List Int) (e' : ForthError)
    (herr : interpretTokens fuel st out [t] = (st₃, out₃, some e')) :
    st₃.dict = st.dict ∧
    (¬ t.type = TOKEN_WORD → st₃.stack = st.stack ∧ out₃ = out) := by
  cases hmode : st.mode with
  | LEXER_STATE_EXECUTE =>
    by_cases hty : t.type = TOKEN_COLON
    · rw [it_exec_colon_nil fuel st out t hmode hty] at herr
      injection herr with h1 h23
      injection h23 with h2 h3
      subst h1; subst h2
      exact ⟨rfl, fun _ => ⟨rfl, rfl⟩⟩
    · cases hex : execToken fuel st.dict t st.stack out with
      | ok r =>
        obtain ⟨s₁, out₁⟩ := r
        rw [it_exec_step_ok fuel st out t [] s₁ out₁ hmode hty hex] at herr
        exact nomatch herr
      | error err =>
        obtain ⟨e₁, sf, outf⟩ := err
        rw [it_exec_step_err fuel st out t [] e₁ sf outf hmode hty hex] at herr
        injection herr with h1 h23
        injection h23 with h2 h3
        subst h1; subst h2
        refine ⟨rfl, fun hw => ?_⟩
        obtain ⟨rfl, rfl⟩ :=
          execToken_err_frame fuel st.dict t st.stack sf out outf e₁ hw hex
        exact ⟨rfl, rfl⟩
  | LEXER_STATE_COMPILE =>
    cases hcur : st.current with
    | none =>
      rw [it_compile_nocur fuel st out t [] hmode hcur] at herr
      injection herr with h1 h23
      injection h23 with h2 h3
      subst h1; subst h2
      exact ⟨rfl, fun _ => ⟨rfl, rfl⟩⟩
    | some entry =>
      by_cases h1 : t.type = TOKEN_IF
      · rw [it_compile_if fuel st out t [] entry hmode hcur h1] at herr
        exact nomatch herr
      by_cases h2 : t.type = TOKEN_ELSE
      · cases hp : st.patchStack with
        | nil =>
          rw [it_compile_else_nil fuel st out t [] entry hmode hcur h2 hp] at herr
          injection herr with ha hb
          injection hb with hb hc
          subst ha; subst hb
          exact ⟨rfl, fun _ => ⟨rfl, rfl⟩⟩
        | cons pos rest =>
          rw [it_compile_else_cons fuel st out t [] entry pos rest
                hmode hcur h2 hp] at herr
          exact nomatch herr
      by_cases h3 : t.type = TOKEN_THEN
      · cases hp : st.patchStack with
        | nil =>
          rw [it_compile_then_nil fuel st out t [] entry hmode hcur h3 hp] at herr
          injection herr with ha hb
          injection hb with hb hc
          subst ha; subst hb
          exact ⟨rfl, fun _ => ⟨rfl, rfl⟩⟩
        | cons pos rest =>
          rw [it_compile_then_cons fuel st out t [] entry pos rest
                hmode hcur h3 hp] at herr
          exact nomatch herr
      by_cases h4 : t.type = TOKEN_SEMICOLON
      · cases hp : st.patchStack with
        | nil =>
          rw [it_compile_semi_nil fuel st out t [] entry hmode hcur h4 hp] at herr
          exact nomatch herr
        | cons pos rest =>
          rw [it_compile_semi_cons fuel st out t [] entry pos rest
                hmode hcur h4 hp] at herr
          injection herr with ha hb
          injection hb with hb hc
          subst ha; subst hb
          exact ⟨rfl, fun _ => ⟨rfl, rfl⟩⟩
      by_cases h5 : t.type = TOKEN_COLON
      · rw [it_compile_colon fuel st out t [] entry hmode hcur h5] at herr
        injection herr with ha hb
        injection hb with hb hc
        subst ha; subst hb
        exact ⟨rfl, fun _ => ⟨rfl, rfl⟩⟩
      · rw [it_compile_other fuel st out t [] entry hmode hcur h1 h2 h3 h4 h5] at herr
        exact nomatch herr

/-- C3: every failure aborts the current line immediately — tokens after
the failing one are never examined (extending the line past the failure
point cannot change the outcome; the sole proviso is a line whose last
token is `:`, whose failure is precisely the missing name at the line
end) — the Interpreter is forced back to EXECUTE mode with the
in-progress definition discarded and the patch stack cleared, a failing
token never modifies the Dictionary, and a failing non-word token leaves
the Value Stack and the output exactly as they were at the point of
failure. -/
theorem claim_C3_failure_policy (fuel : Nat) (st : Interp) (out : List Int)
    (ts : List Token) (st₂ : Interp) (out₂ : List Int) (e : ForthError)
    (herr : interpretTokens fuel st out ts = (st₂, out₂, some e)) :
    st₂.mode = LEXER_STATE_EXECUTE ∧ st₂.current = none ∧ st₂.patchStack = [] ∧
    (∀ ts₂ : List Token,
      (∀ tl, ts.getLast? = some tl → ¬ tl.type = TOKEN_COLON) →
      interpretTokens fuel st out (ts ++ ts₂) = (st₂, out₂, some e)) ∧
    (∀ (t : Token) (st₃ : Interp) (out₃ : List Int) (e' : ForthError),
      interpretTokens fuel st out [t] = (st₃, out₃, some e') →
      st₃.dict = st.dict ∧
      (¬ t.type = TOKEN_WORD → st₃.stack = st.stack ∧ out₃ = out)) := by
  obtain ⟨hm, hc, hp⟩ := interpretTokens_error_reset fuel st out ts st₂ out₂ e herr
  refine ⟨hm, hc, hp, ?_, ?_⟩
  · intro ts₂ hlast
    exact interpretTokens_append_error fuel st out ts ts₂ st₂ out₂ e hlast herr
  · intro t st₃ out₃ e' herr₃
    exact interpretTokens_single_frame fuel st out t st₃ out₃ e' herr₃

/-- Witness for C3 at a concrete input: `-` on an empty stack underflows;
appending a further token after the failure changes nothing, and the
failed state is back in EXECUTE mode with no in-progress definition. -/
theorem claim_C3_witness :
    interpretTokens 9 (initInterp 2) [] ([mkOp TOKEN_MINUS] ++ [mkInt 7])
      = (initInterp 2, [], some .StackUnderflow) ∧
    (initInterp 2).mode = LEXER_STATE_EXECUTE ∧ (initInterp 2).current = none :=
  have h := claim_C3_failure_policy 9 (initInterp 2) [] [mkOp TOKEN_MINUS]
    (initInterp 2) [] .StackUnderflow (by decide)
  ⟨h.2.2.2.1 [mkInt 7]
    (by
      intro tl hl
      obtain rfl : mkOp TOKEN_MINUS = tl := by simpa using hl
      decide),
   h.1, h.2.1⟩

end DevelopOS
